import Mathlib

/-!
Shallow embedding of the ReasoningMaps-LLM repository
(`src/reasoning_parser.py`, `src/main.py`, `src/llm_client.py`).

Python's regex classes `\d`, `\s`, `\w` are modelled by their ASCII
subsets (Python's defaults cover the full Unicode classes); every theorem
below either evaluates the matchers at concrete ASCII strings, where the
two semantics agree, or relies only on structure that is independent of
the character classes (such as the step pattern's mandatory colon).

The two regular expressions in `reasoning_parser.py` are hand-compiled into
explicit matchers that reproduce the Python `re` backtracking semantics
(leftmost match; greedy quantifiers try the longest alternative first; the
lazy group `(.*?)` extends one character at a time until its lookahead
succeeds).
-/

namespace RMap

/-- Python `str.strip()` / regex `\s` whitespace set (ASCII). -/
def pyIsSpace (c : Char) : Bool :=
  c == ' ' || c == '\t' || c == '\n' || c == '\r' || c == '\x0b' || c == '\x0c'

/-- Python `str.strip()` on the character list. -/
def stripList (l : List Char) : List Char :=
  ((l.dropWhile pyIsSpace).reverse.dropWhile pyIsSpace).reverse

/-- Python `str.strip()`. -/
def pyStrip (s : String) : String :=
  String.mk (stripList s.data)

/-- Length of the maximal run of characters satisfying `p` starting at index `i`. -/
def runAt (p : Char → Bool) (s : List Char) (i : Nat) : Nat :=
  ((s.drop i).takeWhile p).length

/-- Index of the first ':' at position `≥ i`, if any. -/
def firstColonFrom (s : List Char) (i : Nat) : Option Nat :=
  match (s.drop i).findIdx? (fun c => c == ':') with
  | some k => some (i + k)
  | none => none

/-- The substring `s[a..b-1]` as a `String`. -/
def sliceStr (s : List Char) (a b : Nat) : String :=
  String.mk ((s.drop a).take (b - a))

/-- The zero-width lookahead `(?=\n\d+\.?\s*\**|\Z)` of the step pattern,
tested at index `j` (the trailing `\.?\s*\**` is all-optional, so only
`\n` followed by a digit matters). -/
def lookaheadOk (s : List Char) (j : Nat) : Bool :=
  j == s.length ||
    (s[j]? == some '\n' && (s[j+1]?.any Char.isDigit))

/-- End index of the lazy content group `(.*?)` started at `q`: the least
`j ≥ q` where the lookahead succeeds (with DOTALL, `.` also matches `\n`,
and `\Z` makes `j = s.length` always succeed). -/
def contentEnd (s : List Char) (q : Nat) : Nat :=
  match (List.range' q (s.length + 1 - q)).find? (lookaheadOk s) with
  | some j => j
  | none => s.length

/-- Hand-compiled match of `(\d+)\.?\s*\**([^:]+):\**\s*(.*?)(?=\n\d+\.?\s*\**|\Z)`
(DOTALL) anchored at index `i`.  Returns `(group 2, group 3, match end)`.

The backtracking candidates for the start of `([^:]+)` form the contiguous
range `i+1 .. pFull` (greedy quantifiers are tried longest-first, and giving
back one character of `\d+`/`\.?`/`\s*`/`\**` moves the start down by exactly
one), so the first candidate that leaves a nonempty `[^:]+` before the first
colon `c` is `min pFull (c-1)`.  A match exists iff `s[i]` is a digit and the
first colon after `i` is at distance at least two.

Here `\d` (and `\s`) are modelled at their ASCII subsets, while Python
matches the full Unicode classes; the theorems below therefore only use
this matcher at ASCII inputs, where the two agree, or through the
colon-requirement, which does not depend on the digit class at all. -/
def stepMatchAt (s : List Char) (i : Nat) : Option (String × String × Nat) :=
  match s[i]? with
  | none => none
  | some ch =>
    if ch.isDigit then
      match firstColonFrom s (i + 1) with
      | none => none
      | some c =>
        if i + 2 ≤ c then
          let d := runAt Char.isDigit s i
          let p1 := i + d
          let p2 := if s[p1]? == some '.' then p1 + 1 else p1
          let p3 := p2 + runAt pyIsSpace s p2
          let pFull := p3 + runAt (fun c => c == '*') s p3
          let p := min pFull (c - 1)
          let q0 := c + 1 + runAt (fun c => c == '*') s (c + 1)
          let q := q0 + runAt pyIsSpace s q0
          let e := contentEnd s q
          some (sliceStr s p c, sliceStr s q e, e)
        else none
    else none

/-- Scanning as in `re.finditer`: first match starting at an index `≥ pos`. -/
def findFrom (s : List Char) (pos : Nat) : Option (String × String × Nat) :=
  (List.range' pos (s.length - pos)).findSome? (stepMatchAt s)

/-- All matches of the step pattern, in `re.finditer` order (each search
resumes at the previous match's end; every match is nonempty, so the fuel
`s.length + 1` is never exhausted). -/
def collectMatches (s : List Char) : Nat → Nat → List (String × String)
  | 0, _ => []
  | Nat.succ fuel, pos =>
    match findFrom s pos with
    | none => []
    | some (t, c, e) => (t, c) :: collectMatches s fuel e

/-- All of `pattern.finditer(self.raw_text)` with the step pattern, returning the
`(group 2, group 3)` pairs. -/
def findStepMatches (raw : String) : List (String × String) :=
  collectMatches raw.data (raw.data.length + 1) 0

/-- The ordered stage dictionary `self.steps` (a Python `dict`:
insertion-ordered, assignment to an existing key overwrites in place). -/
abbrev Steps := List (String × String)

/-- Python `dict` assignment `steps[k] = v`. -/
def insertStep : Steps → String → String → Steps
  | [], k, v => [(k, v)]
  | (k0, v0) :: rest, k, v =>
    if k0 = k then (k0, v) :: rest else (k0, v0) :: insertStep rest k v

/-- Python `dict.get(k)` (as `Option`). -/
def getStep : Steps → String → Option String
  | [], _ => none
  | (k0, v0) :: rest, k => if k0 = k then some v0 else getStep rest k

/-- Python `k in dict`. -/
def hasStep (st : Steps) (k : String) : Bool :=
  (getStep st k).isSome

/-- The keys of the stage dictionary, in insertion order. -/
def stepKeys (st : Steps) : List String :=
  st.map Prod.fst

/-- Test that `needle` is a prefix of `hay`. -/
def startsWithList : List Char → List Char → Bool
  | [], _ => true
  | _ :: _, [] => false
  | a :: as, b :: bs => a == b && startsWithList as bs

/-- Python substring test `needle in hay` (contiguous substring). -/
def containsSub (needle : List Char) : List Char → Bool
  | [] => needle.isEmpty
  | c :: rest => startsWithList needle (c :: rest) || containsSub needle rest

/-- Python `str.lower()` (ASCII case mapping, as `Char.toLower`). -/
def lowerList (l : List Char) : List Char :=
  l.map Char.toLower

/-- Python `needle in title.lower()`. -/
def titleHas (needle : String) (title : String) : Bool :=
  containsSub needle.data (lowerList title.data)

/-- The canonicalizing `if/elif` chain of `parse_reasoning`'s loop body
(`title` and `content` are already stripped by the caller). -/
def storeStep (st : Steps) (title content : String) : Steps :=
  if titleHas "argument breakdown" title then
    insertStep st "Argument Breakdown" content
  else if titleHas "question analysis" title then
    insertStep st "Question Analysis" content
  else if titleHas "strategic evaluation" title then
    insertStep st "Strategic Evaluation" content
  else if titleHas "final conclusion" title then
    insertStep st "Final Conclusion" content
  else
    insertStep st title content

/-- Method `ReasoningMap.parse_reasoning` as a function from the raw text to
the stage dictionary. -/
def parseReasoning (raw : String) : Steps :=
  (findStepMatches raw).foldl (fun st m => storeStep st (pyStrip m.1) (pyStrip m.2)) []

/-- Regex `\w` (ASCII): letters, digits, underscore. -/
def isWordChar (c : Char) : Bool :=
  c.isAlpha || c.isDigit || c == '_'

/-- Whether the character at index `i` is a word character (out of range
counts as non-word). -/
def wordAt (s : List Char) (i : Nat) : Bool :=
  match s[i]? with
  | some c => isWordChar c
  | none => false

/-- Regex `\b`: a word boundary at index `i`. -/
def boundaryAt (s : List Char) (i : Nat) : Bool :=
  (if i == 0 then false else wordAt s (i - 1)) != wordAt s i

/-- The capture class `[A-E]` (uppercase only: the pattern is compiled
without `re.IGNORECASE`). -/
def isAnswerLetter (c : Char) : Bool :=
  'A' ≤ c && c ≤ 'E'

/-- The optional trailer class `[:\.]`. -/
def isColonDot (c : Char) : Bool :=
  c == ':' || c == '.'

/-- The suffix `\)?[:\.]?\b` of the answer pattern after the captured letter
at index `j`.  Greedy options are tried longest-first; every alternative
yields the same captured letter, so a boolean disjunction over the
alternatives is faithful. -/
def letterTail (s : List Char) (j : Nat) : Bool :=
  (s[j+1]? == some ')' &&
    (((s[j+2]?.any isColonDot) && boundaryAt s (j+3)) || boundaryAt s (j+2)))
  ||
  (((s[j+1]?.any isColonDot) && boundaryAt s (j+2)) || boundaryAt s (j+1))

/-- Hand-compiled match of `\b\(?([A-E])\)?[:\.]?\b` anchored at index `i`,
returning the captured letter. -/
def letterMatchAt (s : List Char) (i : Nat) : Option Char :=
  if boundaryAt s i then
    match s[i]? with
    | none => none
    | some c0 =>
      if c0 == '(' then
        match s[i+1]? with
        | some c1 => if isAnswerLetter c1 && letterTail s (i + 1) then some c1 else none
        | none => none
      else
        if isAnswerLetter c0 && letterTail s i then some c0 else none
  else none

/-- Search as in `re.search` with the answer pattern: the match at the leftmost possible
start index wins. -/
def searchLetter (s : List Char) : Option Char :=
  (List.range (s.length + 1)).findSome? (letterMatchAt s)

/-- The answer-extraction step of `analyze_correctness`: search the given
text for the answer pattern and convert the letter positionally
(`ord(letter) - ord('A')`). -/
def extractLetter (text : String) : Option Nat :=
  (searchLetter text.data).map (fun c => c.toNat - 'A'.toNat)

/-- The graph structure built by `build_graph` (`networkx.DiGraph`:
node insertion order is kept, re-adding an existing node or edge is a
no-op). -/
structure Digraph where
  nodes : List String
  edges : List (String × String)
deriving DecidableEq, Repr

/-- The graph with no nodes (a fresh `nx.DiGraph()`). -/
def Digraph.empty : Digraph := ⟨[], []⟩

/-- Python `graph.add_node(v)`. -/
def Digraph.addNode (g : Digraph) (v : String) : Digraph :=
  if g.nodes.contains v then g else { g with nodes := g.nodes ++ [v] }

/-- Python `v in graph` (node membership). -/
def Digraph.hasNode (g : Digraph) (v : String) : Bool :=
  g.nodes.contains v

/-- Python `graph.add_edge(u, v)` (also inserts missing endpoints, as networkx does). -/
def Digraph.addEdge (g : Digraph) (u v : String) : Digraph :=
  let g := (g.addNode u).addNode v
  if g.edges.contains (u, v) then g else { g with edges := g.edges ++ [(u, v)] }

/-- The list `std_steps` of `build_graph`. -/
def stdSteps : List String :=
  ["Argument Breakdown", "Question Analysis", "Strategic Evaluation", "Final Conclusion"]

/-- Method `ReasoningMap.build_graph` as a function from the stage dictionary to
the graph (early return of the empty graph when no steps were parsed). -/
def buildGraph (st : Steps) : Digraph :=
  if st.isEmpty then Digraph.empty
  else
    let g := Digraph.empty.addNode "Context"
    let g := stdSteps.foldl (fun g step => if hasStep st step then g.addNode step else g) g
    let g := if g.hasNode "Argument Breakdown" then
               g.addEdge "Context" "Argument Breakdown" else g
    let g := if g.hasNode "Argument Breakdown" && g.hasNode "Question Analysis" then
               g.addEdge "Argument Breakdown" "Question Analysis" else g
    let g := if g.hasNode "Question Analysis" && g.hasNode "Strategic Evaluation" then
               g.addEdge "Question Analysis" "Strategic Evaluation" else g
    let g := if g.hasNode "Strategic Evaluation" && g.hasNode "Final Conclusion" then
               g.addEdge "Strategic Evaluation" "Final Conclusion" else g
    g

/-- The mutable state of a `ReasoningMap` object (`raw_llm_text`, the
problem's ground-truth `label`, and the fields set by the methods). -/
structure MapState where
  rawText : String
  label : Nat
  steps : Steps
  llmAnswer : Option Nat
  isCorrect : Bool
  graph : Digraph
deriving DecidableEq, Repr

/-- Constructor `ReasoningMap.__init__`. -/
def MapState.init (raw : String) (label : Nat) : MapState :=
  { rawText := raw, label := label, steps := [], llmAnswer := none,
    isCorrect := false, graph := Digraph.empty }

/-- Method `ReasoningMap.parse_reasoning` as a state transformer. -/
def MapState.parseStep (m : MapState) : MapState :=
  { m with steps := parseReasoning m.rawText }

/-- Method `ReasoningMap.analyze_correctness` as a state transformer: reads the
"Final Conclusion" entry (defaulting to `""`), returns unchanged when it is
empty/absent, otherwise searches it with the answer pattern and sets
`llm_answer` and (only on equality with the label) `is_correct`. -/
def MapState.analyzeStep (m : MapState) : MapState :=
  let conclusionText := (getStep m.steps "Final Conclusion").getD ""
  if conclusionText = "" then m
  else
    match extractLetter conclusionText with
    | some i =>
      let m2 := { m with llmAnswer := some i }
      if i = m.label then { m2 with isCorrect := true } else m2
    | none => m

/-- Method `ReasoningMap.build_graph` as a state transformer. -/
def MapState.buildStep (m : MapState) : MapState :=
  { m with graph := buildGraph m.steps }

/-- The parse → evaluate → build pipeline run by `process_problem` on a
successfully generated raw text. -/
def runPipeline (raw : String) (label : Nat) : MapState :=
  (((MapState.init raw label).parseStep).analyzeStep).buildStep

/-! `src/llm_client.py`: the values `get_llm_reasoning` can return on
failure (the fourth, generic-exception shape does not start with `"Error"`). -/

/-- Failure value for a 200 response whose JSON lacks the expected text. -/
def errInvalidFormat (dataDump : String) : String :=
  "Error: Invalid Gemini response format. " ++ dataDump

/-- Failure value for a non-200 HTTP status. -/
def errStatus (code : Nat) (body : String) : String :=
  "Error " ++ toString code ++ ": " ++ body

/-- Failure value for `httpx.ReadTimeout`. -/
def errTimeout : String :=
  "Error: Request timed out."

/-- Failure value for any other exception. -/
def errRequestFailed (e : String) : String :=
  "Request failed: " ++ e

/-! `src/main.py`: the branch of `process_problem` on the returned text. -/

/-- The test `"Error" in raw_text` of `process_problem` (substring
containment, not a prefix test). -/
def containsError (raw : String) : Bool :=
  containsSub "Error".data raw.data

/-- Whether the raw text begins with the marker `"Error"`. -/
def beginsWithError (raw : String) : Bool :=
  startsWithList "Error".data raw.data

/-- Outcome of `process_problem` for one problem: either the short-circuit
record for a detected generation failure, or the fully analyzed session. -/
inductive Outcome where
  | generationFailed (errorMessage : String)
  | analyzed (result : MapState)
deriving DecidableEq, Repr

/-- True exactly on the short-circuit branch of the outcome. -/
def Outcome.isFailure : Outcome → Bool
  | .generationFailed _ => true
  | .analyzed _ => false

/-- Orchestration of `process_problem` relevant to parsing: the raw text
is fed to the parser pipeline iff `"Error" in raw_text` is false. -/
def processProblem (raw : String) (label : Nat) : Outcome :=
  if containsError raw then .generationFailed raw
  else .analyzed (runPipeline raw label)

end RMap


namespace RMap

/-- The key discipline `parse_reasoning` actually maintains: a stored key
whose lowercase contains one of the canonical stage phrases is exactly that
canonical name (keys from the `else` branch contain none of the phrases). -/
def GoodKey (k : String) : Prop :=
  (titleHas "argument breakdown" k = true → k = "Argument Breakdown") ∧
  (titleHas "question analysis" k = true → k = "Question Analysis") ∧
  (titleHas "strategic evaluation" k = true → k = "Strategic Evaluation") ∧
  (titleHas "final conclusion" k = true → k = "Final Conclusion")

/-- The single-line scenario text of the specification (no newline before
the numbered headings). -/
def scenarioText : String :=
  "1. Argument Breakdown: Premise X. 2. Question Analysis: Type Flaw. 4. Final Conclusion: The answer is (A)."

/-- The stage dictionary the parser actually produces on the scenario text. -/
def scenarioSteps : Steps :=
  [("Argument Breakdown",
    "Premise X. 2. Question Analysis: Type Flaw. 4. Final Conclusion: The answer is (A).")]

/-! ### Helper lemmas -/

/-- A prefix test survives extending the haystack on the right. -/
lemma startsWithList_append (n h t : List Char) (hs : startsWithList n h = true) :
    startsWithList n (h ++ t) = true := by
  induction n generalizing h with
  | nil => simp [startsWithList]
  | cons a as ih =>
    cases h with
    | nil => simp [startsWithList] at hs
    | cons b bs =>
      simp only [startsWithList, Bool.and_eq_true] at hs ⊢
      exact ⟨hs.1, ih bs hs.2⟩

/-- The empty needle is a substring of everything. -/
lemma containsSub_nil (h : List Char) : containsSub [] h = true := by
  cases h <;> simp [containsSub, startsWithList, List.isEmpty]

/-- A substring test survives extending the haystack on the right. -/
lemma containsSub_append (n h t : List Char) (hs : containsSub n h = true) :
    containsSub n (h ++ t) = true := by
  induction h with
  | nil =>
    simp only [containsSub, List.isEmpty_iff] at hs
    subst hs
    exact containsSub_nil t
  | cons c rest ih =>
    simp only [containsSub, Bool.or_eq_true] at hs
    simp only [List.cons_append, containsSub, Bool.or_eq_true]
    cases hs with
    | inl h1 => exact Or.inl (startsWithList_append _ _ _ h1)
    | inr h2 => exact Or.inr (ih h2)

/-- Lemma: `containsError` survives appending text on the right. -/
lemma containsError_append (s t : String) (h : containsError s = true) :
    containsError (s ++ t) = true := by
  simpa [containsError] using containsSub_append _ s.data t.data (by simpa [containsError] using h)

/-- Keys after a dict assignment: every key was already there or is the
assigned key. -/
lemma mem_stepKeys_insertStep (st : Steps) (k0 v k : String)
    (h : k ∈ stepKeys (insertStep st k0 v)) : k ∈ stepKeys st ∨ k = k0 := by
  induction st with
  | nil =>
    simp only [insertStep, stepKeys, List.map_cons, List.map_nil, List.mem_singleton] at h
    exact Or.inr h
  | cons p rest ih =>
    obtain ⟨k1, v1⟩ := p
    by_cases hk : k1 = k0
    · simp only [insertStep, if_pos hk, stepKeys, List.map_cons, List.mem_cons] at h
      cases h with
      | inl h1 => exact Or.inr (h1.trans hk)
      | inr h2 =>
        exact Or.inl (by
          simp only [stepKeys, List.map_cons, List.mem_cons]
          exact Or.inr h2)
    · simp only [insertStep, if_neg hk, stepKeys, List.map_cons, List.mem_cons] at h
      cases h with
      | inl h1 =>
        exact Or.inl (by
          simp only [stepKeys, List.map_cons, List.mem_cons]
          exact Or.inl h1)
      | inr h2 =>
        cases ih h2 with
        | inl h3 =>
          exact Or.inl (by
            simp only [stepKeys, List.map_cons, List.mem_cons]
            exact Or.inr h3)
        | inr h3 => exact Or.inr h3

end RMap

namespace RMap

/-- One iteration of `parse_reasoning`'s loop preserves the key discipline. -/
lemma goodKey_storeStep (st : Steps) (t c : String)
    (hst : ∀ k ∈ stepKeys st, GoodKey k) :
    ∀ k ∈ stepKeys (storeStep st t c), GoodKey k := by
  intro k hk
  unfold storeStep at hk
  by_cases h1 : titleHas "argument breakdown" t = true
  · rw [if_pos h1] at hk
    cases mem_stepKeys_insertStep _ _ _ _ hk with
    | inl h => exact hst k h
    | inr h => subst h; exact ⟨fun _ => rfl, by decide, by decide, by decide⟩
  · rw [if_neg h1] at hk
    by_cases h2 : titleHas "question analysis" t = true
    · rw [if_pos h2] at hk
      cases mem_stepKeys_insertStep _ _ _ _ hk with
      | inl h => exact hst k h
      | inr h => subst h; exact ⟨by decide, fun _ => rfl, by decide, by decide⟩
    · rw [if_neg h2] at hk
      by_cases h3 : titleHas "strategic evaluation" t = true
      · rw [if_pos h3] at hk
        cases mem_stepKeys_insertStep _ _ _ _ hk with
        | inl h => exact hst k h
        | inr h => subst h; exact ⟨by decide, by decide, fun _ => rfl, by decide⟩
      · rw [if_neg h3] at hk
        by_cases h4 : titleHas "final conclusion" t = true
        · rw [if_pos h4] at hk
          cases mem_stepKeys_insertStep _ _ _ _ hk with
          | inl h => exact hst k h
          | inr h => subst h; exact ⟨by decide, by decide, by decide, fun _ => rfl⟩
        · rw [if_neg h4] at hk
          cases mem_stepKeys_insertStep _ _ _ _ hk with
          | inl h => exact hst k h
          | inr h =>
            subst h
            exact ⟨fun hc => absurd hc h1, fun hc => absurd hc h2,
                   fun hc => absurd hc h3, fun hc => absurd hc h4⟩

/-- The whole parse loop preserves the key discipline. -/
lemma goodKey_foldl (l : List (String × String)) :
    ∀ st : Steps, (∀ k ∈ stepKeys st, GoodKey k) →
      ∀ k ∈ stepKeys (l.foldl (fun st m => storeStep st (pyStrip m.1) (pyStrip m.2)) st),
        GoodKey k := by
  induction l with
  | nil => intro st hst k hk; exact hst k hk
  | cons m rest ih =>
    intro st hst k hk
    exact ih _ (goodKey_storeStep st _ _ hst) k hk

/-- Lemma: `analyze_correctness` sets `is_correct` exactly when the extracted
index exists and equals the label, provided the flag starts out false and
no answer was recorded yet (the state produced by `__init__`). -/
lemma analyzeStep_correct_iff (m : MapState)
    (h1 : m.isCorrect = false) (h2 : m.llmAnswer = none) :
    (m.analyzeStep.isCorrect = true ↔ m.analyzeStep.llmAnswer = some m.label) := by
  unfold MapState.analyzeStep
  by_cases hc : (getStep m.steps "Final Conclusion").getD "" = ""
  · simp [hc, h1, h2]
  · rw [if_neg hc]
    cases hx : extractLetter ((getStep m.steps "Final Conclusion").getD "") with
    | none => simp [h1, h2]
    | some i =>
      by_cases hi : i = m.label
      · simp [hi]
      · simp [hi, h1]

end RMap

namespace RMap

/-! ### Claim theorems -/

/-- C1 (counterexample): with zero present stages `build_graph` returns the
empty graph — not the claimed 5-node/4-edge chain with synthesized
"missing" nodes. -/
theorem buildGraph_no_missing_nodes_cex :
    ¬ ((buildGraph []).nodes.length = 5 ∧ (buildGraph []).edges.length = 4) := by
  decide

/-- C1 (amended): `build_graph` synthesizes no "missing" nodes.  On an empty
stage map it returns the empty graph; otherwise the nodes are the Context
root plus exactly the present canonical stages, and the edges are
Context→Argument Breakdown when Argument Breakdown is present together with
the edges between canonically consecutive stages when both endpoints are
present — an absent stage is skipped and breaks the chain. -/
theorem buildGraph_characterization (st : Steps) :
    buildGraph st =
      if st.isEmpty then Digraph.empty
      else
        { nodes := "Context" :: stdSteps.filter (fun n => hasStep st n),
          edges :=
            (if hasStep st "Argument Breakdown" then
              [("Context", "Argument Breakdown")] else []) ++
            (if hasStep st "Argument Breakdown" && hasStep st "Question Analysis" then
              [("Argument Breakdown", "Question Analysis")] else []) ++
            (if hasStep st "Question Analysis" && hasStep st "Strategic Evaluation" then
              [("Question Analysis", "Strategic Evaluation")] else []) ++
            (if hasStep st "Strategic Evaluation" && hasStep st "Final Conclusion" then
              [("Strategic Evaluation", "Final Conclusion")] else []) } := by
  by_cases h0 : st.isEmpty
  · simp [buildGraph, h0]
  · cases h1 : hasStep st "Argument Breakdown" <;>
    cases h2 : hasStep st "Question Analysis" <;>
    cases h3 : hasStep st "Strategic Evaluation" <;>
    cases h4 : hasStep st "Final Conclusion" <;>
      simp [buildGraph, h0, h1, h2, h3, h4, stdSteps, Digraph.addNode, Digraph.addEdge,
            Digraph.hasNode, Digraph.empty, List.filter]

end RMap

namespace RMap

/-- C2 (counterexample): on text with no "answer is"/"conclusion:" phrase
but standalone letters, the code takes the FIRST standalone letter, not the
last: `"discuss A and C options, final: E"` yields index 0 (A), not the
claimed index 4 (E). -/
theorem extract_no_last_fallback_cex :
    extractLetter "discuss A and C options, final: E" ≠ some 4 ∧
      extractLetter "discuss A and C options, final: E" = some 0 := by
  constructor
  · decide
  · decide

/-- C2 (amended): answer extraction applies the single case-sensitive
pattern `\b\(?([A-E])\)?[:\.]?\b` and the first match wins; there is no
"answer is"/"conclusion:" priority pattern and no last-occurrence fallback.
On `"The answer is (B)..."` with a later stray `D` the first standalone
letter happens to be B (index 1); on the fallback example the first
standalone letter A (index 0) wins, not the last letter E. -/
theorem extract_first_standalone_letter :
    extractLetter "The answer is (B). However, a stray D." = some 1 ∧
      extractLetter "discuss A and C options, final: E" = some 0 := by
  constructor
  · decide
  · decide

/-- C3 (counterexample): on the scenario text the parser finds ONE stage,
not three — the step pattern only terminates a section at a newline
followed by a digit, and the scenario is a single line — so the stage map
has 1 entry, the graph 2 nodes, and no answer is extracted. -/
theorem scenario_cex :
    ¬ ((runPipeline scenarioText 0).steps.length = 3 ∧
       (runPipeline scenarioText 0).graph.nodes.length = 5 ∧
       (runPipeline scenarioText 0).llmAnswer = some 0) := by
  decide

/-- Lemma: `analyze_correctness` returns with the state unchanged when the
"Final Conclusion" entry is missing or empty (`if not conclusion_text`). -/
lemma analyzeStep_eq_self (m : MapState)
    (h : (getStep m.steps "Final Conclusion").getD "" = "") :
    m.analyzeStep = m := by
  unfold MapState.analyzeStep
  simp [h]

/-- C3 (amended): on the single-line scenario text the whole remainder of
the line is swallowed as the content of "Argument Breakdown" (the section
terminator requires a newline before the next numbered heading); the stage
map has exactly one entry, the graph is Context → Argument Breakdown
(2 nodes, 1 edge), no answer is extracted, and correctness is false for
every ground-truth label. -/
theorem scenario_actual (label : Nat) :
    runPipeline scenarioText label =
      { rawText := scenarioText, label := label, steps := scenarioSteps,
        llmAnswer := none, isCorrect := false,
        graph := { nodes := ["Context", "Argument Breakdown"],
                   edges := [("Context", "Argument Breakdown")] } } := by
  have h1 : parseReasoning scenarioText = scenarioSteps := by decide
  have h2 : (getStep scenarioSteps "Final Conclusion").getD "" = "" := by decide
  have h3 : buildGraph scenarioSteps =
      { nodes := ["Context", "Argument Breakdown"],
        edges := [("Context", "Argument Breakdown")] } := by decide
  have hm := analyzeStep_eq_self
    (MapState.mk scenarioText label scenarioSteps none false Digraph.empty) h2
  unfold runPipeline MapState.parseStep MapState.init
  rw [h1]
  dsimp only
  rw [hm]
  unfold MapState.buildStep
  dsimp only
  rw [h3]

end RMap

namespace RMap

/-- C4 (counterexample): the generic-exception failure value
`"Request failed: ..."` returned by `get_llm_reasoning` does not carry the
`"Error"` marker and is NOT short-circuited (it reaches the parser), while
a reasoning text merely mentioning "Error" mid-string is short-circuited
although it does not begin with the marker. -/
theorem error_gate_cex :
    beginsWithError (errRequestFailed "connection reset by peer") = false ∧
    (processProblem (errRequestFailed "connection reset by peer") 0).isFailure = false ∧
    beginsWithError "1. Argument Breakdown: an Error occurred in step 2" = false ∧
    (processProblem "1. Argument Breakdown: an Error occurred in step 2" 0).isFailure = true := by
  refine ⟨by decide, by decide, by decide, by decide⟩

/-- C4 (amended): the orchestrator short-circuits iff the substring
`"Error"` occurs ANYWHERE in the raw text.  Three of the four failure
shapes of `get_llm_reasoning` (invalid format, HTTP status, timeout) always
contain the marker, but the generic-exception shape `"Request failed: ..."`
need not, so such a failure can reach the parser. -/
theorem error_gate_substring (raw : String) (label : Nat)
    (dump body : String) (code : Nat) :
    (processProblem raw label).isFailure = containsError raw ∧
    containsError (errInvalidFormat dump) = true ∧
    containsError (errStatus code body) = true ∧
    containsError errTimeout = true := by
  refine ⟨?_, ?_, ?_, by decide⟩
  · unfold processProblem
    cases h : containsError raw <;> simp [h, Outcome.isFailure]
  · unfold errInvalidFormat
    exact containsError_append _ _ (by decide)
  · unfold errStatus
    exact containsError_append _ _ (containsError_append _ _ (containsError_append _ _ (by decide)))

/-- C5 (counterexample): a heading without a leading number is not
segmented at all — `"Argument Breakdown: premise"` yields an empty stage
map, contradicting "regardless of whether any numbering precedes it". -/
theorem unnumbered_heading_cex :
    parseReasoning "Argument Breakdown: premise" = [] ∧
    hasStep (parseReasoning "Argument Breakdown: premise") "Argument Breakdown" = false := by
  refine ⟨by decide, by decide⟩

/-- C5 (amended): segmentation only finds numbered headings
`<digits> [.] <title> :` — the pattern needs a literal colon, so a text
containing no ':' at all parses to the empty map (this holds for every
string, whatever its digits, since the step pattern cannot complete
without a colon); with a numbered heading the stage is included
(case-insensitively) and a heading at end-of-string still maps to the
empty string, while the unnumbered-heading counterexample shows the
number is also required. -/
theorem parse_requires_numbered_heading :
    (∀ raw : String, raw.data.all (fun c => !(c == ':')) = true → parseReasoning raw = []) ∧
    parseReasoning "1. Argument Breakdown: P\n2. Final Conclusion:" =
      [("Argument Breakdown", "P"), ("Final Conclusion", "")] ∧
    parseReasoning "1. ARGUMENT BREAKDOWN: x" = [("Argument Breakdown", "x")] := by
  refine ⟨?_, by decide, by decide⟩
  intro raw h
  have hall : ∀ c ∈ raw.data, (c == ':') = false := by
    intro c hc
    have := (List.all_eq_true.mp h) c hc
    simpa using this
  have hcol : ∀ pos, firstColonFrom raw.data pos = none := by
    intro pos
    unfold firstColonFrom
    rw [List.findIdx?_eq_none_iff.mpr
      (fun c hc => hall c (List.mem_of_mem_drop hc))]
  have hstep : ∀ i, stepMatchAt raw.data i = none := by
    intro i
    unfold stepMatchAt
    cases hgi : raw.data[i]? with
    | none => rfl
    | some ch => simp [hcol]
  have hfind : ∀ pos, findFrom raw.data pos = none := by
    intro pos
    unfold findFrom
    exact List.findSome?_eq_none_iff.mpr (fun x _ => hstep x)
  unfold parseReasoning findStepMatches
  rw [show raw.data.length + 1 = Nat.succ raw.data.length from rfl]
  unfold collectMatches
  rw [hfind 0]
  rfl

/-- C6 (counterexample): with no "Final Conclusion" stage the raw text is
NOT searched: `"The answer is (B)"` (which has no numbered headings, hence
no Final Conclusion stage) extracts nothing, not index 1. -/
theorem no_fulltext_fallback_cex :
    (runPipeline "The answer is (B)" 1).llmAnswer ≠ some 1 ∧
    (runPipeline "The answer is (B)" 1).llmAnswer = none := by
  refine ⟨by decide, by decide⟩

/-- C6 (amended): when the "Final Conclusion" entry is missing (or empty),
`analyze_correctness` returns immediately without searching the raw text or
anything else: the state — in particular `llm_answer = None` and
`is_correct = False` — is unchanged. -/
theorem analyze_skips_without_conclusion (m : MapState)
    (h : (getStep m.steps "Final Conclusion").getD "" = "") :
    m.analyzeStep = m :=
  analyzeStep_eq_self m h

/-- Witness for `analyze_skips_without_conclusion` at a concrete state. -/
theorem analyze_skips_without_conclusion_witness :
    (MapState.init "The answer is (B)" 1).analyzeStep = MapState.init "The answer is (B)" 1 :=
  analyze_skips_without_conclusion (MapState.init "The answer is (B)" 1) (by decide)

/-- C7 (counterexample): the answer pattern is case-sensitive — a lowercase
answer letter is never matched, so `"the answer is b"` extracts nothing
while `"the answer is B"` extracts index 1. -/
theorem lowercase_not_matched_cex :
    extractLetter "the answer is b" = none ∧
    extractLetter "the answer is B" = some 1 := by
  refine ⟨by decide, by decide⟩

/-- C7 (amended): the letter-to-index mapping is positional
(`ord(letter) - ord('A')`, so A→0 … E→4) but only for UPPERCASE letters;
the same conclusion text with the lowercase letter yields no extraction. -/
theorem letter_mapping_case_sensitive (i : Fin 5) :
    extractLetter (String.push "the answer is " (Char.ofNat (65 + i.val))) = some i.val ∧
    extractLetter (String.push "the answer is " (Char.ofNat (97 + i.val))) = none := by
  fin_cases i <;> exact ⟨by decide, by decide⟩

/-- C8 (confirmed): the correctness flag starts false at construction, and
after the pipeline it is true exactly when an answer index was extracted
and equals the ground-truth label (any extraction failure leaves it false;
no exceptional outcome exists). -/
theorem correctness_flag_iff (raw : String) (label : Nat) :
    (MapState.init raw label).isCorrect = false ∧
      ((runPipeline raw label).isCorrect = true ↔
        (runPipeline raw label).llmAnswer = some label) := by
  constructor
  · rfl
  · have h := analyzeStep_correct_iff ((MapState.init raw label).parseStep) rfl rfl
    simpa [runPipeline, MapState.buildStep, MapState.parseStep, MapState.init] using h

/-- C9 (counterexample): a numbered heading whose title matches no
canonical stage is stored verbatim — `"1. Random Thoughts: blah"` produces
the non-canonical key "Random Thoughts". -/
theorem noncanonical_key_cex :
    parseReasoning "1. Random Thoughts: blah" = [("Random Thoughts", "blah")] ∧
    stdSteps.contains "Random Thoughts" = false := by
  refine ⟨by decide, by decide⟩

/-- C9 (amended): stage-map keys need not be canonical (other numbered
headings are stored under their own stripped titles); what does hold is
that any key whose lowercase contains a canonical stage phrase is exactly
that canonical stage name — non-canonical keys contain no canonical
phrase. -/
theorem parse_keys_discipline (raw : String) (k : String)
    (h : k ∈ stepKeys (parseReasoning raw)) : GoodKey k := by
  unfold parseReasoning at h
  refine goodKey_foldl _ [] ?_ k h
  intro k0 hk0
  simp [stepKeys] at hk0

/-- Witness for `parse_keys_discipline` at a concrete parse. -/
theorem parse_keys_discipline_witness : GoodKey "Argument Breakdown" :=
  parse_keys_discipline "1. Argument Breakdown: x" "Argument Breakdown" (by decide)

/-- C10 (confirmed): the three core operations are total functions of the
raw text and label (the embedding returns plain values, never an
exceptional outcome), and when segmentation finds zero headings the
pipeline proceeds and yields the empty stage map, no answer, a false
correctness flag and the empty graph. -/
theorem pipeline_handles_empty_parse (raw : String) (label : Nat)
    (h : parseReasoning raw = []) :
    runPipeline raw label =
      { rawText := raw, label := label, steps := [], llmAnswer := none,
        isCorrect := false, graph := Digraph.empty } := by
  have h2 : (getStep ([] : Steps) "Final Conclusion").getD "" = "" := rfl
  unfold runPipeline MapState.parseStep MapState.init
  rw [h]
  dsimp only
  rw [analyzeStep_eq_self (MapState.mk raw label [] none false Digraph.empty) h2]
  unfold MapState.buildStep
  dsimp only
  rw [(by decide : buildGraph ([] : Steps) = Digraph.empty)]

/-- Witness for `pipeline_handles_empty_parse` at a concrete heading-free
text. -/
theorem pipeline_handles_empty_parse_witness :
    runPipeline "The model refused to answer." 2 =
      { rawText := "The model refused to answer.", label := 2, steps := [],
        llmAnswer := none, isCorrect := false, graph := Digraph.empty } :=
  pipeline_handles_empty_parse "The model refused to answer." 2 (by decide)

end RMap

namespace RMap

/-- Witness for `parse_requires_numbered_heading` at a concrete colon-free
text. -/
theorem parse_requires_numbered_heading_witness :
    parseReasoning "Argument Breakdown with 12 digits but no colon" = [] :=
  parse_requires_numbered_heading.1 "Argument Breakdown with 12 digits but no colon" (by decide)

end RMap
